import Mathlib

/-!
Shallow embedding of the Echolin deepfake-detection pipeline.

Sources embedded:
* `src/backend/detector.py` (`detect_image`, `detect_video` and the inline
  temporal aggregation at lines 62-63),
* `src/backend/llm_service.py` (`generate_response`, fallback dictionaries),
* `src/backend/agent.py` (`deepfake_agent`),
* `src/detection_model/Deepfake Videos.py` (`uniform_temporal_subsample`,
  `preprocess_video`, `predict_single_video`, `predict_batch`),
* `src/detection_model/deepfake_image.py` (`predict_single_image`'s
  argmax/softmax confidence computation).

Modelling conventions:
* Python floats for confidences are embedded as exact rationals `ℚ`;
  the softmax over logits is embedded over `ℝ` with `Real.exp`.
* Python exceptions are embedded as `Except String`/`Option` results.
* `numpy.linspace(0, stop, num, dtype=int)` is embedded in exact integer
  arithmetic (`i * stop / (num - 1)` with floor division), which agrees
  with the float computation in the regime used by the program.
* Python `set` iteration order is unspecified (string hashing is
  randomized per process), so the set built in `detect_video` line 62 is
  embedded as an explicit enumeration parameter `order`, constrained by
  `IsSetEnum` to list each distinct label exactly once.
-/

namespace Backend

/-- Python's `max(iterable, key=key)`: scan left to right keeping the
current maximum, replacing it only on a strictly larger key, so on ties
the earliest element of the iteration wins.  `none` models the
`ValueError` that Python's `max` raises on an empty iterable. -/
def pyMaxBy (key : String → Nat) : List String → Option String
  | [] => none
  | x :: rest => some (rest.foldl (fun m y => if key m < key y then y else m) x)

/-- `sum(1 for r in results if r[0] == l)` in detector.py line 62. -/
def countLabel (rs : List (String × ℚ)) (l : String) : Nat :=
  (rs.filter (fun r => r.1 = l)).length

/-- `[r[0] for r in results]` in detector.py line 62. -/
def labelsOf (rs : List (String × ℚ)) : List String :=
  rs.map Prod.fst

/-- `sum([r[1] for r in results if r[0] == final_label])` in detector.py
line 63. -/
def sumMatching (rs : List (String × ℚ)) (l : String) : ℚ :=
  ((rs.filter (fun r => r.1 = l)).map Prod.snd).sum

/-- `order` is a possible iteration order of Python's
`set([r[0] for r in results])`: it lists each distinct label of `rs`
exactly once, in an arbitrary order. -/
def IsSetEnum (order : List String) (rs : List (String × ℚ)) : Prop :=
  order.Nodup ∧ ∀ l, l ∈ order ↔ l ∈ labelsOf rs

/-- detector.py lines 62-63, the temporal aggregation inside
`detect_video`:

```python
final_label = max(set([r[0] for r in results]),
                  key=lambda l: sum(1 for r in results if r[0] == l))
avg_confidence = sum([r[1] for r in results if r[0] == final_label]) / len(results)
```

Note the division by `len(results)` (all predictions), not by the number
of entries matching `final_label`.  The `ValueError` of `max` on an empty
set is the error case. -/
def aggregate (order : List String) (rs : List (String × ℚ)) :
    Except String (String × ℚ) :=
  match pyMaxBy (countLabel rs) order with
  | none => .error "max() arg is an empty sequence"
  | some fl => .ok (fl, sumMatching rs fl / (rs.length : ℚ))

/-- The frame-classification loop of `detect_video` (detector.py lines
43-58): `while frames_analyzed < 10 and cap.isOpened(): ret, frame =
cap.read(); ...; results.append((label, confidence))`.  The budget
argument starts at 10; `classify` abstracts the ViT model call on one
frame (lines 48-56). -/
def videoLoop {α : Type} (classify : α → String × ℚ) :
    Nat → List α → List (String × ℚ)
  | 0, _ => []
  | _ + 1, [] => []
  | b + 1, f :: rest => classify f :: videoLoop classify b rest

/-- Result dictionary of `detect_image` / `detect_video`: either the
detection fields (`type` is determined by the function, so not stored)
or an `"error"` entry. -/
inductive DetectOutput where
  | ok (label : String) (confidence : ℚ) (artifactType : String)
      (artifactScore : ℚ)
  | error (msg : String)
deriving DecidableEq, Repr

/-- detector.py lines 11-31.  `decode` abstracts
`Image.open(file).convert("RGB")` (`none` = the decode raised);
`classify` abstracts processor + model + argmax + softmax on the decoded
image.  The `except` clause converts any exception into an error
dictionary. -/
def detect_image {α β : Type} (decode : α → Option β)
    (classify : β → String × ℚ) (file : α) : DetectOutput :=
  match decode file with
  | none => .error "Image detection failed: cannot identify image file"
  | some img =>
      let lc := classify img
      .ok lc.1 lc.2 "face_texture" (lc.2 * 100)

/-- detector.py lines 33-72.  `frames` is the decoded frame sequence of
the uploaded video; `order` is the iteration order of the Python set of
predicted labels (see `IsSetEnum`).  The `except` clause converts the
`ValueError` raised by aggregation on an empty result list into an error
dictionary. -/
def detect_video {γ : Type} (classify : γ → String × ℚ)
    (order : List String) (frames : List γ) : DetectOutput :=
  let results := videoLoop classify 10 frames
  match aggregate order results with
  | .ok lc => .ok lc.1 lc.2 "frame_consistency" (lc.2 * 100)
  | .error e => .error ("Video detection failed: " ++ e)

end Backend

namespace VideoModel

/-- Python list indexing `l[i]` with negative-index wraparound:
`l[i]` is `l[i]` for `0 ≤ i < len(l)`, `l[len(l)+i]` for
`-len(l) ≤ i < 0`, and raises `IndexError` (here `none`) otherwise. -/
def pyGet {α : Type} (l : List α) (i : Int) : Option α :=
  if 0 ≤ i then l.get? i.toNat
  else if 0 ≤ (l.length : Int) + i then l.get? ((l.length : Int) + i).toNat
  else none

/-- The list comprehension `[frames[i] for i in indices]` ("Deepfake
Videos.py" line 56); a single out-of-range index raises `IndexError`,
modelled as `none`. -/
def pyGetAll {α : Type} (frames : List α) : List Int → Option (List α)
  | [] => some []
  | i :: rest =>
      match pyGet frames i, pyGetAll frames rest with
      | some v, some vs => some (v :: vs)
      | _, _ => none

/-- `np.linspace(0, stop, num, dtype=int)` ("Deepfake Videos.py" line
54), embedded in exact integer arithmetic: entry `i` is
`⌊i * stop / (num - 1)⌋`.  numpy evaluates the interpolation in float64
and truncates; for `num = 1` it returns `[0]` and for `num = 0` the
empty array, which the `num - 1 = 0` convention below (Nat division by
zero is zero) reproduces exactly. -/
def linspaceInt (stop : Nat) (num : Nat) : List Nat :=
  (List.range num).map (fun i => i * stop / (num - 1))

/-- `DeepfakeDetector.uniform_temporal_subsample` ("Deepfake Videos.py"
lines 42-56):

```python
total_frames = len(frames)
if total_frames <= num_samples:
    indices = list(range(total_frames))
    while len(indices) < num_samples:
        indices.append(total_frames - 1)
else:
    indices = np.linspace(0, total_frames - 1, num_samples, dtype=int)
return [frames[i] for i in indices]
```

For `total_frames = 0` the appended index is `-1`, and the final
comprehension raises `IndexError` on the empty list (here `none`). -/
def uniform_temporal_subsample {α : Type} (frames : List α)
    (num_samples : Nat) : Option (List α) :=
  let total := frames.length
  let indices : List Int :=
    if total ≤ num_samples then
      (List.range total).map Int.ofNat ++
        List.replicate (num_samples - total) ((total : Int) - 1)
    else
      (linspaceInt (total - 1) num_samples).map Int.ofNat
  pyGetAll frames indices

/-- `DeepfakeDetector.preprocess_video` ("Deepfake Videos.py" lines
58-112).  `decoded` is the frame list read by the cv2 loop; the
`ValueError` raised when no frame could be read (line 77) is the spec's
`DecodeError`.  `normalize` abstracts the per-frame resize/normalize
tensor transform (lines 88-107). -/
def preprocess_video {α β : Type} (normalize : α → β) (num_frames : Nat)
    (decoded : List α) : Except String (List β) :=
  match decoded with
  | [] => .error "Could not read any frames"
  | _ =>
      match uniform_temporal_subsample decoded num_frames with
      | none => .error "IndexError"
      | some sampled => .ok (sampled.map normalize)

/-- A `predict_single_video` result dictionary: either a prediction
record or an error record, both keyed by the video path. -/
inductive VideoResult where
  | ok (path : String) (prediction : String) (confidence : ℚ)
  | err (path : String) (msg : String)
deriving DecidableEq, Repr

/-- `DeepfakeDetector.predict_single_video` ("Deepfake Videos.py" lines
114-156): the whole body is wrapped in `try/except`, so any exception
(in particular the `ValueError` of `preprocess_video`) becomes an error
record for this path.  `decode` abstracts the cv2 frame-read loop and
`classifyClip` the VideoMAE forward pass + argmax + softmax. -/
def predict_single_video {α β : Type} (decode : String → List α)
    (normalize : α → β) (num_frames : Nat)
    (classifyClip : List β → String × ℚ) (video_path : String) :
    VideoResult :=
  match preprocess_video normalize num_frames (decode video_path) with
  | .error e => .err video_path e
  | .ok clip =>
      let p := classifyClip clip
      .ok video_path p.1 p.2

/-- `DeepfakeDetector.predict_batch` ("Deepfake Videos.py" lines
158-173): a for-loop appending `predict_single_video(path)` for each
path, i.e. a map; each item resolves independently of the others. -/
def predict_batch {α β : Type} (decode : String → List α)
    (normalize : α → β) (num_frames : Nat)
    (classifyClip : List β → String × ℚ) (video_paths : List String) :
    List VideoResult :=
  video_paths.map (predict_single_video decode normalize num_frames classifyClip)

end VideoModel

namespace LLM

/-- `SYSTEM_PROMPTS` dictionary, llm_service.py lines 7-12. -/
def SYSTEM_PROMPTS : List (String × String) :=
  [("analysis", "You are DeepShield AI, a forensic expert in deepfake detection. Provide detailed, professional analysis of detection results in clear, educational language."),
   ("educational", "You are DeepShield AI, an expert educator in AI security and deepfake detection. Explain complex concepts clearly and adapt to the user\x27s technical level."),
   ("conversational", "You are DeepShield AI, a helpful AI security expert. Provide professional yet approachable responses about deepfakes, AI security, and digital forensics."),
   ("threat_analysis", "You are DeepShield AI, a cybersecurity expert specializing in deepfake threats. Provide comprehensive threat landscape analysis.")]

/-- `FALLBACKS` dictionary, llm_service.py lines 14-19. -/
def FALLBACKS : List (String × String) :=
  [("analysis", "Based on multi-method forensic analysis, this content shows the indicated confidence level for authenticity assessment."),
   ("educational", "Advanced computer vision and ML techniques were used, including facial landmarks, texture patterns, and frequency-based filters."),
   ("threat_analysis", "Deepfakes pose threats to democracy, finance, and individual safety. Early detection is vital to protect digital ecosystems."),
   ("conversational", "I\x27m DeepShield AI, your assistant in spotting and explaining deepfakes. Ask me anything about media security!")]

/-- Python `dict[key]` lookup on a string-keyed dictionary, `none`
modelling a `KeyError`. -/
def dictGet (d : List (String × String)) (k : String) : Option String :=
  (d.find? (fun p => p.1 = k)).map Prod.snd

/-- Outcome of `requests.post` + status check + body parsing in
`generate_response` (llm_service.py lines 40-43):
* `exn`: the post itself raised (timeout, connection error);
* `badStatus`: non-2xx response, `raise_for_status()` raised;
* `badJson`: `response.json()` raised (malformed body);
* `ok data`: parsed JSON, where `data` is `none` when the `"choices"`
  key is absent, and otherwise the list of choices, each carrying its
  `message.content` string or `none` when that path is absent. -/
inductive LLMOutcome where
  | exn
  | badStatus
  | badJson
  | ok (data : Option (List (Option String)))

/-- `data.get("choices", [{}])[0].get("message", {}).get("content",
FALLBACKS[intent])` (llm_service.py line 43): a missing `"choices"` key
defaults to `[{}]` whose only element has no content, an empty choices
list raises `IndexError`, a missing content defaults to
`FALLBACKS[intent]` (which itself raises `KeyError` on an unknown
intent). -/
def extractContent (intent : String)
    (data : Option (List (Option String))) : Except String String :=
  match data with
  | none =>
      match dictGet FALLBACKS intent with
      | some fb => .ok fb
      | none => .error "KeyError"
  | some [] => .error "IndexError"
  | some (none :: _) =>
      match dictGet FALLBACKS intent with
      | some fb => .ok fb
      | none => .error "KeyError"
  | some (some c :: _) => .ok c

/-- `generate_response` (llm_service.py lines 22-46): the `try` block
posts, checks status, parses and extracts; on any exception the
`except` clause returns `FALLBACKS[intent]` (raising `KeyError` if the
intent has no fallback).  The prompt and rolling context only feed the
external call and do not influence the embedded outcome, so they are
not carried here. -/
def generate_response (intent : String) (outcome : LLMOutcome) :
    Except String String :=
  let tryResult : Except String String :=
    match outcome with
    | .exn => .error "request exception"
    | .badStatus => .error "HTTPError"
    | .badJson => .error "JSONDecodeError"
    | .ok data => extractContent intent data
  match tryResult with
  | .ok s => .ok s
  | .error _ =>
      match dictGet FALLBACKS intent with
      | some fb => .ok fb
      | none => .error "KeyError"

/-- `generate_analysis_explanation` (llm_service.py lines 49-73): builds
a textual prompt from the detection result and delegates to
`generate_response` with intent `"analysis"`; the prompt text only feeds
the external call. -/
def generate_analysis_explanation (outcome : LLMOutcome) :
    Except String String :=
  generate_response "analysis" outcome

end LLM

namespace Agent

open Backend LLM

/-- Return dictionary of `deepfake_agent`: a detection result with the
explanation attached, a detection error record with the explanation
attached, or the bare unsupported-type error. -/
inductive AgentResult where
  | ok (label : String) (confidence : ℚ) (artifactType : String)
      (artifactScore : ℚ) (explanation : String)
  | errWithExplanation (msg : String) (explanation : String)
  | unsupported
deriving DecidableEq, Repr

/-- Python's `str.startswith(pre)`: the characters of `pre` head the
characters of `s`. -/
def pyStartswith (s pre : String) : Bool :=
  pre.data.isPrefixOf s.data

/-- `deepfake_agent` (agent.py lines 4-35).  The uploaded file is
modelled by its decoded views: `file`/`decode`/`classifyImg` feed the
image branch, `frames`/`classifyFrame` and the set-enumeration `order`
feed the video branch; `outcome` is the external LLM call's outcome.
Step 2's `try/except` replaces a raised explanation with the static
failure string. -/
def deepfake_agent {α β γ : Type} (decode : α → Option β)
    (classifyImg : β → String × ℚ) (classifyFrame : γ → String × ℚ)
    (order : List String) (outcome : LLMOutcome) (file : α)
    (frames : List γ) (fileType : String) : AgentResult :=
  let detection : Option DetectOutput :=
    if pyStartswith fileType "image/" then
      some (detect_image decode classifyImg file)
    else if pyStartswith fileType "video/" then
      some (detect_video classifyFrame order frames)
    else none
  match detection with
  | none => .unsupported
  | some dr =>
      let explanation :=
        match generate_analysis_explanation outcome with
        | .ok e => e
        | .error _ => "LLM explanation failed. Core detection succeeded."
      match dr with
      | .ok l c t s => .ok l c t s explanation
      | .error m => .errWithExplanation m explanation

end Agent

namespace ImageModel

/-- `torch.softmax(logits, dim=1)` over a single row of logits
(detector.py line 22, deepfake_image.py line 20), embedded over `ℝ`
with the exact exponential. -/
noncomputable def softmax (xs : List ℝ) : List ℝ :=
  xs.map (fun x => Real.exp x / (xs.map Real.exp).sum)

/-- `torch.argmax(logits)` (detector.py line 20, deepfake_image.py line
19): the index of the first maximal entry. -/
noncomputable def argmaxIdx (xs : List ℝ) : Nat :=
  xs.findIdx (fun x => decide (∀ y ∈ xs, y ≤ x))

end ImageModel

namespace Backend

/-- The fold inside `pyMaxBy` returns the seed or a list element. -/
lemma pyFold_mem (key : String → Nat) :
    ∀ (l : List String) (x : String),
      l.foldl (fun m y => if key m < key y then y else m) x ∈ x :: l := by
  intro l
  induction l with
  | nil => intro x; simp
  | cons y t ih =>
      intro x
      rw [List.foldl_cons]
      have h := ih (if key x < key y then y else x)
      rcases List.mem_cons.mp h with h1 | h2
      · rw [h1]
        split
        · exact List.mem_cons_of_mem _ (List.mem_cons_self _ _)
        · exact List.mem_cons_self _ _
      · exact List.mem_cons_of_mem _ (List.mem_cons_of_mem _ h2)

/-- The fold inside `pyMaxBy` dominates the seed and every element. -/
lemma pyFold_ge (key : String → Nat) :
    ∀ (l : List String) (x z : String), z ∈ x :: l →
      key z ≤ key (l.foldl (fun m y => if key m < key y then y else m) x) := by
  intro l
  induction l with
  | nil =>
      intro x z hz
      rcases List.mem_cons.mp hz with rfl | h
      · simp
      · simp at h
  | cons y t ih =>
      intro x z hz
      rw [List.foldl_cons]
      have hxy : key x ≤ key (if key x < key y then y else x) := by
        split <;> omega
      have hyy : key y ≤ key (if key x < key y then y else x) := by
        split <;> omega
      have htop := ih (if key x < key y then y else x)
          (if key x < key y then y else x) (List.mem_cons_self _ _)
      rcases List.mem_cons.mp hz with rfl | hz'
      · exact le_trans hxy htop
      · rcases List.mem_cons.mp hz' with rfl | hz''
        · exact le_trans hyy htop
        · exact ih _ z (List.mem_cons_of_mem _ hz'')

/-- `pyMaxBy` on a non-empty iteration returns an element of maximal
key, the earliest such element in iteration order. -/
lemma pyMaxBy_spec (key : String → Nat) (l : List String) (hl : l ≠ []) :
    ∃ m, pyMaxBy key l = some m ∧ m ∈ l ∧ ∀ z ∈ l, key z ≤ key m := by
  cases l with
  | nil => exact absurd rfl hl
  | cons x t =>
      exact ⟨_, rfl, pyFold_mem key t x, fun z hz => pyFold_ge key t x z hz⟩

/-- Unfolding `sumMatching` over a cons cell. -/
lemma sumMatching_cons (r : String × ℚ) (t : List (String × ℚ)) (l : String) :
    sumMatching (r :: t) l = (if r.1 = l then r.2 else 0) + sumMatching t l := by
  by_cases hc : r.1 = l <;> simp [sumMatching, List.filter_cons, hc]

/-- The matching-confidence sum is non-negative when all confidences
are. -/
lemma sumMatching_nonneg (rs : List (String × ℚ)) (l : String)
    (hb : ∀ r ∈ rs, 0 ≤ r.2) : 0 ≤ sumMatching rs l := by
  induction rs with
  | nil => simp [sumMatching]
  | cons r t ih =>
      rw [sumMatching_cons]
      have h0 := hb r (List.mem_cons_self _ _)
      have ht := ih (fun x hx => hb x (List.mem_cons_of_mem _ hx))
      split <;> linarith

/-- The matching-confidence sum is at most the total number of
predictions when every confidence lies in `[0,1]`. -/
lemma sumMatching_le_length (rs : List (String × ℚ)) (l : String)
    (hb : ∀ r ∈ rs, 0 ≤ r.2 ∧ r.2 ≤ 1) :
    sumMatching rs l ≤ (rs.length : ℚ) := by
  induction rs with
  | nil => simp [sumMatching]
  | cons r t ih =>
      rw [sumMatching_cons]
      have h0 := hb r (List.mem_cons_self _ _)
      have ht := ih (fun x hx => hb x (List.mem_cons_of_mem _ hx))
      rw [List.length_cons]
      push_cast
      split <;> linarith [h0.1, h0.2]

end Backend

namespace VideoModel

/-- Indexing distributes over an appended index list: both halves must
succeed, and the results concatenate. -/
lemma pyGetAll_append {α : Type} (frames : List α) (l1 l2 : List Int) :
    pyGetAll frames (l1 ++ l2) =
      match pyGetAll frames l1, pyGetAll frames l2 with
      | some v1, some v2 => some (v1 ++ v2)
      | _, _ => none := by
  induction l1 with
  | nil =>
      simp only [List.nil_append, pyGetAll]
      cases pyGetAll frames l2 <;> rfl
  | cons i t ih =>
      simp only [List.cons_append, pyGetAll, List.append_eq]
      rw [ih]
      cases pyGet frames i <;> cases pyGetAll frames t <;>
        cases pyGetAll frames l2 <;> rfl

/-- Python indexing at a non-negative in-range index. -/
lemma pyGet_ofNat {α : Type} (l : List α) (k : Nat) (hk : k < l.length) :
    pyGet l (Int.ofNat k) = some (l.get ⟨k, hk⟩) := by
  unfold pyGet
  rw [if_pos (show (0:Int) ≤ Int.ofNat k from Int.ofNat_nonneg k)]
  simp [List.get?_eq_get hk]

/-- Indexing with `range n` (for `n` within bounds) returns the first
`n` elements. -/
lemma pyGetAll_range_take {α : Type} (frames : List α) :
    ∀ (n : Nat), n ≤ frames.length →
      pyGetAll frames ((List.range n).map Int.ofNat)
        = some (frames.take n) := by
  intro n
  induction n with
  | zero => intro _; simp [pyGetAll]
  | succ k ih =>
      intro hk
      have hklt : k < frames.length := hk
      rw [List.range_succ, List.map_append, pyGetAll_append,
        ih (le_of_lt hklt)]
      have hget := pyGet_ofNat frames k hklt
      have htail : pyGetAll frames (List.map Int.ofNat [k])
          = some [frames.get ⟨k, hklt⟩] := by
        simp only [List.map_cons, List.map_nil, pyGetAll, hget]
      have helem : frames[k]? = some (frames.get ⟨k, hklt⟩) := by
        rw [List.getElem?_eq_getElem hklt]
        simp [List.get_eq_getElem]
      rw [htail, List.take_succ, helem]
      rfl

/-- Indexing with a constant valid index replicates its value. -/
lemma pyGetAll_replicate {α : Type} (frames : List α) (k : Nat) (i : Int)
    (v : α) (hg : pyGet frames i = some v) :
    pyGetAll frames (List.replicate k i) = some (List.replicate k v) := by
  induction k with
  | zero => rfl
  | succ n ih => simp [List.replicate_succ, pyGetAll, hg, ih]

/-- Indexing succeeds and preserves the count when every index is
valid. -/
lemma pyGetAll_all_valid {α : Type} (frames : List α) :
    ∀ (idxs : List Int), (∀ i ∈ idxs, ∃ v, pyGet frames i = some v) →
      ∃ out, pyGetAll frames idxs = some out ∧ out.length = idxs.length := by
  intro idxs
  induction idxs with
  | nil => intro _; exact ⟨[], rfl, rfl⟩
  | cons i t ih =>
      intro hv
      obtain ⟨v, hvi⟩ := hv i (List.mem_cons_self _ _)
      obtain ⟨out, hout, hlen⟩ := ih (fun j hj => hv j (List.mem_cons_of_mem _ hj))
      exact ⟨v :: out, by simp [pyGetAll, hvi, hout], by simp [hlen]⟩

end VideoModel

/-- C3 counterexample: on an empty frame list (`F = 0 ≤ N`) the
sampler does not return a list of length `N`: the padding index is
`total_frames - 1 = -1` and the final list comprehension raises
`IndexError` on the empty list. -/
theorem subsample_empty_cex :
    VideoModel.uniform_temporal_subsample ([] : List Nat) 16 = none := rfl

/-- C3 (amended): for every NON-EMPTY frame list of length `F ≤ N`,
`uniform_temporal_subsample` returns the input frames in order followed
by `N - F` copies of the last frame, a list of length exactly `N`. -/
theorem subsample_pad_short_video {α : Type} (frames : List α) (N : Nat)
    (h : frames ≠ []) (hF : frames.length ≤ N) :
    VideoModel.uniform_temporal_subsample frames N
      = some (frames ++ List.replicate (N - frames.length) (frames.getLast h)) ∧
    (frames ++ List.replicate (N - frames.length) (frames.getLast h)).length
      = N := by
  have hlen : 0 < frames.length := List.length_pos.mpr h
  constructor
  · simp only [VideoModel.uniform_temporal_subsample]
    rw [if_pos hF, VideoModel.pyGetAll_append,
      VideoModel.pyGetAll_range_take frames frames.length le_rfl,
      List.take_length]
    have hidx : ((frames.length : Int) - 1).toNat = frames.length - 1 := by
      omega
    have hlt : frames.length - 1 < frames.length := by omega
    have hget : VideoModel.pyGet frames ((frames.length : Int) - 1)
        = some (frames.getLast h) := by
      unfold VideoModel.pyGet
      rw [if_pos (by omega : (0:Int) ≤ (frames.length : Int) - 1), hidx,
        List.get?_eq_get hlt]
      simp [List.getLast_eq_getElem]
    rw [VideoModel.pyGetAll_replicate frames (N - frames.length) _ _ hget]
  · rw [List.length_append, List.length_replicate]
    omega

/-- C3 witness: the spec's end-to-end example, a 5-frame video sampled
to 10 frames: `[0,1,2,3,4]` becomes `[0,1,2,3,4,4,4,4,4,4]`. -/
theorem subsample_pad_witness :
    (([1,2,3,4,5] : List Nat) ≠ []) ∧
    (([1,2,3,4,5] : List Nat).length ≤ 10) ∧
    (VideoModel.uniform_temporal_subsample ([1,2,3,4,5] : List Nat) 10
      = some (([1,2,3,4,5] : List Nat) ++
          List.replicate (10 - ([1,2,3,4,5] : List Nat).length)
            (([1,2,3,4,5] : List Nat).getLast (by simp))) ∧
     (([1,2,3,4,5] : List Nat) ++
          List.replicate (10 - ([1,2,3,4,5] : List Nat).length)
            (([1,2,3,4,5] : List Nat).getLast (by simp))).length = 10) :=
  ⟨by simp, by simp,
    subsample_pad_short_video ([1,2,3,4,5] : List Nat) 10 (by simp) (by simp)⟩

/-- C4: for every frame list of length `F > N` (with `N ≥ 2` as for the
model's required frame count), the sampler selects exactly the `N`
integer-rounded linearly interpolated indices `⌊i·(F−1)/(N−1)⌋`, which
are strictly increasing (hence non-decreasing with no duplicates),
include `0` and `F−1`, and indexing with them succeeds with exactly `N`
output frames. -/
theorem subsample_linspace_long_video {α : Type} (frames : List α) (N : Nat)
    (h2 : 2 ≤ N) (hF : N < frames.length) :
    (VideoModel.linspaceInt (frames.length - 1) N).length = N ∧
    List.Pairwise (· < ·) (VideoModel.linspaceInt (frames.length - 1) N) ∧
    0 ∈ VideoModel.linspaceInt (frames.length - 1) N ∧
    (frames.length - 1) ∈ VideoModel.linspaceInt (frames.length - 1) N ∧
    VideoModel.uniform_temporal_subsample frames N
      = VideoModel.pyGetAll frames
          ((VideoModel.linspaceInt (frames.length - 1) N).map Int.ofNat) ∧
    (∃ out, VideoModel.uniform_temporal_subsample frames N = some out ∧
      out.length = N) := by
  have hd0 : 0 < N - 1 := by omega
  have hsucc : ∀ n : Nat, n * (frames.length - 1) / (N - 1) + 1
      ≤ (n + 1) * (frames.length - 1) / (N - 1) := by
    intro n
    have hmul : (n + 1) * (frames.length - 1)
        = n * (frames.length - 1) + (frames.length - 1) := Nat.succ_mul _ _
    have hge : n * (frames.length - 1) + (N - 1)
        ≤ (n + 1) * (frames.length - 1) := by omega
    calc n * (frames.length - 1) / (N - 1) + 1
        = (n * (frames.length - 1) + (N - 1)) / (N - 1) :=
          (Nat.add_div_right _ hd0).symm
      _ ≤ (n + 1) * (frames.length - 1) / (N - 1) :=
          Nat.div_le_div_right hge
  have hmono : StrictMono (fun i => i * (frames.length - 1) / (N - 1)) :=
    strictMono_nat_of_lt_succ
      (fun n => lt_of_lt_of_le (Nat.lt_succ_self _) (hsucc n))
  have hpair : List.Pairwise (· < ·)
      (VideoModel.linspaceInt (frames.length - 1) N) := by
    unfold VideoModel.linspaceInt
    rw [List.pairwise_map]
    exact (List.pairwise_lt_range N).imp (fun h => hmono h)
  have h0mem : 0 ∈ VideoModel.linspaceInt (frames.length - 1) N := by
    unfold VideoModel.linspaceInt
    exact List.mem_map.mpr ⟨0, List.mem_range.mpr (by omega), by simp⟩
  have hlast : (frames.length - 1)
      ∈ VideoModel.linspaceInt (frames.length - 1) N := by
    unfold VideoModel.linspaceInt
    exact List.mem_map.mpr ⟨N - 1, List.mem_range.mpr (by omega),
      Nat.mul_div_cancel_left _ hd0⟩
  have huts : VideoModel.uniform_temporal_subsample frames N
      = VideoModel.pyGetAll frames
          ((VideoModel.linspaceInt (frames.length - 1) N).map Int.ofNat) := by
    simp only [VideoModel.uniform_temporal_subsample]
    rw [if_neg (by omega)]
  have hvalid : ∀ i ∈ (VideoModel.linspaceInt (frames.length - 1) N).map Int.ofNat,
      ∃ v, VideoModel.pyGet frames i = some v := by
    intro i hi
    obtain ⟨k, hk, rfl⟩ := List.mem_map.mp hi
    obtain ⟨j, hj, rfl⟩ := List.mem_map.mp hk
    have hj1 : j ≤ N - 1 := by
      have := List.mem_range.mp hj
      omega
    have hbound : j * (frames.length - 1) / (N - 1)
        ≤ (N - 1) * (frames.length - 1) / (N - 1) :=
      Nat.div_le_div_right (Nat.mul_le_mul_right _ hj1)
    rw [Nat.mul_div_cancel_left _ hd0] at hbound
    have hlt : j * (frames.length - 1) / (N - 1) < frames.length := by omega
    exact ⟨frames.get ⟨_, hlt⟩, VideoModel.pyGet_ofNat frames _ hlt⟩
  obtain ⟨out, hout, hlen⟩ := VideoModel.pyGetAll_all_valid frames _ hvalid
  refine ⟨by simp [VideoModel.linspaceInt], hpair, h0mem, hlast, huts,
    out, huts.trans hout, ?_⟩
  rw [hlen]
  simp [VideoModel.linspaceInt]

/-- C4 witness: a 3-frame video sampled to 2 frames selects indices
`[0, 2]`. -/
theorem subsample_linspace_witness :
    (2 ≤ 2) ∧ (2 < ([10,20,30] : List Nat).length) ∧
    ((VideoModel.linspaceInt (([10,20,30] : List Nat).length - 1) 2).length = 2 ∧
     List.Pairwise (· < ·)
       (VideoModel.linspaceInt (([10,20,30] : List Nat).length - 1) 2) ∧
     0 ∈ VideoModel.linspaceInt (([10,20,30] : List Nat).length - 1) 2 ∧
     (([10,20,30] : List Nat).length - 1)
       ∈ VideoModel.linspaceInt (([10,20,30] : List Nat).length - 1) 2 ∧
     VideoModel.uniform_temporal_subsample ([10,20,30] : List Nat) 2
       = VideoModel.pyGetAll ([10,20,30] : List Nat)
           ((VideoModel.linspaceInt (([10,20,30] : List Nat).length - 1) 2).map
             Int.ofNat) ∧
     (∃ out, VideoModel.uniform_temporal_subsample ([10,20,30] : List Nat) 2
        = some out ∧ out.length = 2)) :=
  ⟨le_refl 2, by simp,
    subsample_linspace_long_video ([10,20,30] : List Nat) 2 (le_refl 2) (by simp)⟩

/-- C5: a video source from which zero frames decode fails inside
`preprocess_video` with the `ValueError` "Could not read any frames"
(the spec's `DecodeError`); `predict_single_video` catches it and
records an error result under that video's path, and `predict_batch`
processes every path independently (it is a per-path map), so one
item's failure never aborts or alters the remaining items. -/
theorem batch_isolates_decode_error {α β : Type} (decode : String → List α)
    (normalize : α → β) (num_frames : Nat)
    (classifyClip : List β → String × ℚ) (p : String)
    (hp : decode p = []) (paths : List String) :
    VideoModel.predict_single_video decode normalize num_frames classifyClip p
      = .err p "Could not read any frames" ∧
    (VideoModel.predict_batch decode normalize num_frames classifyClip
        paths).length = paths.length ∧
    (∀ j, (VideoModel.predict_batch decode normalize num_frames classifyClip
        paths).get? j
      = (paths.get? j).map
          (VideoModel.predict_single_video decode normalize num_frames
            classifyClip)) := by
  refine ⟨?_, ?_, ?_⟩
  · simp [VideoModel.predict_single_video, VideoModel.preprocess_video, hp]
  · simp [VideoModel.predict_batch]
  · intro j
    simp [VideoModel.predict_batch, List.get?_map]

/-- C5 witness: a decoder producing zero frames for every path; the
failing item `"bad.mp4"` is recorded as an error and the second path is
still processed. -/
theorem batch_isolates_witness :
    ((fun _ : String => ([] : List Nat)) "bad.mp4" = []) ∧
    (VideoModel.predict_single_video (fun _ : String => ([] : List Nat))
        (id : Nat → Nat) 16 (fun _ => ("FAKE", (1:ℚ)/2)) "bad.mp4"
      = .err "bad.mp4" "Could not read any frames" ∧
     (VideoModel.predict_batch (fun _ : String => ([] : List Nat))
        (id : Nat → Nat) 16 (fun _ => ("FAKE", (1:ℚ)/2))
        ["bad.mp4", "ok.mp4"]).length = (["bad.mp4", "ok.mp4"] : List String).length ∧
     (∀ j, (VideoModel.predict_batch (fun _ : String => ([] : List Nat))
        (id : Nat → Nat) 16 (fun _ => ("FAKE", (1:ℚ)/2))
        ["bad.mp4", "ok.mp4"]).get? j
       = ((["bad.mp4", "ok.mp4"] : List String).get? j).map
           (VideoModel.predict_single_video (fun _ : String => ([] : List Nat))
             (id : Nat → Nat) 16 (fun _ => ("FAKE", (1:ℚ)/2))))) :=
  ⟨rfl, batch_isolates_decode_error (fun _ : String => ([] : List Nat))
    (id : Nat → Nat) 16 (fun _ => ("FAKE", (1:ℚ)/2)) "bad.mp4" rfl
    ["bad.mp4", "ok.mp4"]⟩

/-- C1 (amended): for every non-empty prediction sequence whose
confidences lie in `[0,1]`, and every iteration order of the Python set
of its labels, the aggregation in `detect_video` returns a
`final_label` occurring in the input with maximal occurrence count, and
a confidence equal to the sum of the confidences of entries matching
`final_label` divided by the TOTAL number of predictions (not the
matching count), a value lying in `[0,1]`. -/
theorem aggregate_majority_and_scaled_confidence
    (rs : List (String × ℚ)) (order : List String)
    (hne : rs ≠ []) (henum : Backend.IsSetEnum order rs)
    (hb : ∀ r ∈ rs, 0 ≤ r.2 ∧ r.2 ≤ 1) :
    ∃ fl c, Backend.aggregate order rs = .ok (fl, c) ∧
      fl ∈ Backend.labelsOf rs ∧
      (∀ l ∈ Backend.labelsOf rs,
        Backend.countLabel rs l ≤ Backend.countLabel rs fl) ∧
      c = Backend.sumMatching rs fl / (rs.length : ℚ) ∧
      0 ≤ c ∧ c ≤ 1 := by
  have hlen : 0 < rs.length := List.length_pos.mpr hne
  have hlab : ∃ l0, l0 ∈ Backend.labelsOf rs := by
    cases rs with
    | nil => exact absurd rfl hne
    | cons r t => exact ⟨r.1, List.mem_cons_self _ _⟩
  obtain ⟨l0, hl0⟩ := hlab
  have horder : order ≠ [] := by
    intro h
    have := (henum.2 l0).mpr hl0
    rw [h] at this
    simp at this
  obtain ⟨m, hm, hmem, hge⟩ := Backend.pyMaxBy_spec (Backend.countLabel rs) order horder
  have hcast : (0 : ℚ) < (rs.length : ℚ) := by exact_mod_cast hlen
  refine ⟨m, Backend.sumMatching rs m / (rs.length : ℚ), ?_, ?_, ?_, rfl, ?_, ?_⟩
  · simp [Backend.aggregate, hm]
  · exact (henum.2 m).mp hmem
  · intro l hl
    exact hge l ((henum.2 l).mpr hl)
  · exact div_nonneg (Backend.sumMatching_nonneg rs m (fun r hr => (hb r hr).1))
      (le_of_lt hcast)
  · rw [div_le_one hcast]
    exact Backend.sumMatching_le_length rs m hb

/-- C1 witness: the amended statement instantiated at the one-element
prediction sequence `[("A", 1/2)]` with set order `["A"]`. -/
theorem aggregate_majority_witness :
    ([(("A" : String), (1:ℚ)/2)] ≠ []) ∧
    Backend.IsSetEnum ["A"] [(("A" : String), (1:ℚ)/2)] ∧
    (∀ r ∈ [(("A" : String), (1:ℚ)/2)], 0 ≤ r.2 ∧ r.2 ≤ 1) ∧
    (∃ fl c, Backend.aggregate ["A"] [(("A" : String), (1:ℚ)/2)] = .ok (fl, c) ∧
      fl ∈ Backend.labelsOf [(("A" : String), (1:ℚ)/2)] ∧
      (∀ l ∈ Backend.labelsOf [(("A" : String), (1:ℚ)/2)],
        Backend.countLabel [(("A" : String), (1:ℚ)/2)] l
          ≤ Backend.countLabel [(("A" : String), (1:ℚ)/2)] fl) ∧
      c = Backend.sumMatching [(("A" : String), (1:ℚ)/2)] fl
            / (([(("A" : String), (1:ℚ)/2)] : List (String × ℚ)).length : ℚ) ∧
      0 ≤ c ∧ c ≤ 1) :=
  ⟨by simp, ⟨by simp, fun l => Iff.rfl⟩, by norm_num,
    aggregate_majority_and_scaled_confidence [(("A" : String), (1:ℚ)/2)] ["A"]
      (by simp) ⟨by simp, fun l => Iff.rfl⟩ (by norm_num)⟩

/-- C1 counterexample: on `[("A",1),("A",1),("B",1/2)]` the majority
label is `"A"` under every set iteration order, the arithmetic mean of
the matching confidences is `(1+1)/2 = 1`, but the code returns
`(1+1)/3 = 2/3` because it divides by the total count. -/
theorem aggregate_mean_claim_cex :
    Backend.aggregate ["A","B"] [("A",1),("A",1),("B",(1:ℚ)/2)] = .ok ("A", 2/3) ∧
    Backend.aggregate ["B","A"] [("A",1),("A",1),("B",(1:ℚ)/2)] = .ok ("A", 2/3) ∧
    ((2:ℚ)/3 ≠ (1 + 1)/2) := by
  refine ⟨?_, ?_, by norm_num⟩
  · show Except.ok ("A", ((1:ℚ) + (1 + 0)) / ((3:ℕ):ℚ)) = Except.ok ("A", 2/3)
    simp only [Except.ok.injEq, Prod.mk.injEq]
    norm_num
  · show Except.ok ("A", ((1:ℚ) + (1 + 0)) / ((3:ℕ):ℚ)) = Except.ok ("A", 2/3)
    simp only [Except.ok.injEq, Prod.mk.injEq]
    norm_num

/-- C2 counterexample: on the tied input
`[("A",0.9),("B",0.8),("A",0.7),("B",0.95)]` the aggregation never
returns confidence `0.8`, whichever of the two possible set iteration
orders Python happens to produce. -/
theorem aggregate_tie_claim_cex :
    (Backend.aggregate ["A","B"]
        [("A",(9:ℚ)/10),("B",4/5),("A",7/10),("B",19/20)] ≠ .ok ("A", 4/5)) ∧
    (Backend.aggregate ["B","A"]
        [("A",(9:ℚ)/10),("B",4/5),("A",7/10),("B",19/20)] ≠ .ok ("A", 4/5)) := by
  have h1 : Backend.aggregate ["A","B"]
      [("A",(9:ℚ)/10),("B",4/5),("A",7/10),("B",19/20)] = .ok ("A", 2/5) := by
    show Except.ok ("A", ((9:ℚ)/10 + ((7:ℚ)/10 + 0)) / ((4:ℕ):ℚ))
        = Except.ok ("A", 2/5)
    simp only [Except.ok.injEq, Prod.mk.injEq]
    norm_num
  have h2 : Backend.aggregate ["B","A"]
      [("A",(9:ℚ)/10),("B",4/5),("A",7/10),("B",19/20)] = .ok ("B", 7/16) := by
    show Except.ok ("B", ((4:ℚ)/5 + ((19:ℚ)/20 + 0)) / ((4:ℕ):ℚ))
        = Except.ok ("B", 7/16)
    simp only [Except.ok.injEq, Prod.mk.injEq]
    norm_num
  constructor
  · rw [h1]
    intro hcontra
    simp only [Except.ok.injEq, Prod.mk.injEq] at hcontra
    exact absurd hcontra.2 (by norm_num)
  · rw [h2]
    intro hcontra
    simp only [Except.ok.injEq, Prod.mk.injEq] at hcontra
    exact absurd hcontra.1 (by decide)

/-- C2 (amended): on the tied input the 2-2 tie is broken by the
unspecified iteration order of the Python set `{"A","B"}` (the first
label of that order wins), and the returned confidence is the matching
sum divided by the total count 4: `("A", 0.4)` under order `[A,B]` and
`("B", 0.4375)` under order `[B,A]`; both orders are legitimate
enumerations of the set, so the result is not deterministic and is
never `("A", 0.8)`. -/
theorem aggregate_tie_set_order_dependent :
    Backend.aggregate ["A","B"]
        [("A",(9:ℚ)/10),("B",4/5),("A",7/10),("B",19/20)] = .ok ("A", 2/5) ∧
    Backend.aggregate ["B","A"]
        [("A",(9:ℚ)/10),("B",4/5),("A",7/10),("B",19/20)] = .ok ("B", 7/16) ∧
    Backend.IsSetEnum ["A","B"]
        [("A",(9:ℚ)/10),("B",4/5),("A",7/10),("B",19/20)] ∧
    Backend.IsSetEnum ["B","A"]
        [("A",(9:ℚ)/10),("B",4/5),("A",7/10),("B",19/20)] := by
  refine ⟨?_, ?_, ⟨by simp, ?_⟩, ⟨by simp, ?_⟩⟩
  · show Except.ok ("A", ((9:ℚ)/10 + ((7:ℚ)/10 + 0)) / ((4:ℕ):ℚ))
        = Except.ok ("A", 2/5)
    simp only [Except.ok.injEq, Prod.mk.injEq]
    norm_num
  · show Except.ok ("B", ((4:ℚ)/5 + ((19:ℚ)/20 + 0)) / ((4:ℕ):ℚ))
        = Except.ok ("B", 7/16)
    simp only [Except.ok.injEq, Prod.mk.injEq]
    norm_num
  · intro l
    simp [Backend.labelsOf]
    tauto
  · intro l
    simp [Backend.labelsOf]
    tauto

/-- C6: for an empty prediction sequence (whose set of labels is empty,
hence enumerated by the empty order), the aggregation fails with the
`ValueError` of `max` on an empty sequence (the spec's
`AggregationError`) instead of returning a result. -/
theorem aggregate_empty_fails (order : List String)
    (h : Backend.IsSetEnum order ([] : List (String × ℚ))) :
    Backend.aggregate order [] = .error "max() arg is an empty sequence" := by
  have horder : order = [] := by
    apply List.eq_nil_iff_forall_not_mem.mpr
    intro l hl
    have := (h.2 l).mp hl
    simp [Backend.labelsOf] at this
  subst horder
  rfl

/-- C6 witness: the empty order is a set enumeration of the empty
prediction list, and aggregation on it errors. -/
theorem aggregate_empty_fails_witness :
    Backend.IsSetEnum [] ([] : List (String × ℚ)) ∧
    Backend.aggregate [] [] = .error "max() arg is an empty sequence" :=
  ⟨⟨List.nodup_nil, fun l => by simp [Backend.labelsOf]⟩,
    aggregate_empty_fails [] ⟨List.nodup_nil, fun l => by simp [Backend.labelsOf]⟩⟩

/-- The frame loop of `detect_video` with budget `b` classifies exactly
the first `b` frames of the stream. -/
lemma videoLoop_eq_take_map {α : Type} (classify : α → String × ℚ) :
    ∀ (b : Nat) (fs : List α),
      Backend.videoLoop classify b fs = (fs.take b).map classify := by
  intro b
  induction b with
  | zero => intro fs; cases fs <;> rfl
  | succ n ih =>
      intro fs
      cases fs with
      | nil => rfl
      | cons f rest => simp [Backend.videoLoop, ih rest]

/-- C9: `detect_video` classifies exactly the first `min(10, F)` frames
in decode order — the predictions it aggregates are the image-classifier
outputs on the prefix `frames.take 10`, not on frames sampled across
the full video. -/
theorem detect_video_first_ten_frames {γ : Type}
    (classify : γ → String × ℚ) (frames : List γ) :
    Backend.videoLoop classify 10 frames = (frames.take 10).map classify ∧
    (Backend.videoLoop classify 10 frames).length = min 10 frames.length := by
  constructor
  · exact videoLoop_eq_take_map classify 10 frames
  · rw [videoLoop_eq_take_map classify 10 frames, List.length_map,
      List.length_take]

/-- C10: `detect_image` and `detect_video` are total: on every input
each returns either a result dictionary carrying the detection fields
(label, confidence, artifact type and score) or an error dictionary;
internal failures (image decode, empty-result aggregation) are caught
at the function boundary and converted to error records. -/
theorem detect_functions_total {α β γ : Type} (decode : α → Option β)
    (classifyImg : β → String × ℚ) (classifyFrame : γ → String × ℚ)
    (order : List String) (file : α) (frames : List γ) :
    ((∃ l c t s, Backend.detect_image decode classifyImg file
        = .ok l c t s) ∨
      (∃ m, Backend.detect_image decode classifyImg file = .error m)) ∧
    ((∃ l c t s, Backend.detect_video classifyFrame order frames
        = .ok l c t s) ∨
      (∃ m, Backend.detect_video classifyFrame order frames = .error m)) := by
  constructor
  · unfold Backend.detect_image
    cases decode file with
    | none => exact Or.inr ⟨_, rfl⟩
    | some img => exact Or.inl ⟨_, _, _, _, rfl⟩
  · cases haggr : Backend.aggregate order (Backend.videoLoop classifyFrame 10 frames) with
    | ok lc =>
        exact Or.inl ⟨lc.1, lc.2, "frame_consistency", lc.2 * 100,
          by simp [Backend.detect_video, haggr]⟩
    | error e =>
        exact Or.inr ⟨"Video detection failed: " ++ e,
          by simp [Backend.detect_video, haggr]⟩

/-- C7: when the external text-generation call fails (request
exception, non-2xx status, or malformed body), `deepfake_agent`
attaches the static fallback string of the request's intent category
(`"analysis"` for detection explanations) instead of propagating the
failure, and the response still carries the label and confidence
produced by core detection — in both the image and the video branch. -/
theorem agent_llm_failure_fallback {α β γ : Type} (decode : α → Option β)
    (classifyImg : β → String × ℚ) (classifyFrame : γ → String × ℚ)
    (order : List String) (outcome : LLM.LLMOutcome) (file : α)
    (frames : List γ) (l : String) (c : ℚ) (t : String) (s : ℚ)
    (hfail : outcome = .exn ∨ outcome = .badStatus ∨ outcome = .badJson) :
    LLM.dictGet LLM.FALLBACKS "analysis"
      = some "Based on multi-method forensic analysis, this content shows the indicated confidence level for authenticity assessment." ∧
    (∀ ft : String, Agent.pyStartswith ft "image/" = true →
      Backend.detect_image decode classifyImg file = .ok l c t s →
      Agent.deepfake_agent decode classifyImg classifyFrame order outcome
          file frames ft
        = .ok l c t s "Based on multi-method forensic analysis, this content shows the indicated confidence level for authenticity assessment.") ∧
    (∀ ft : String, Agent.pyStartswith ft "image/" = false →
      Agent.pyStartswith ft "video/" = true →
      Backend.detect_video classifyFrame order frames = .ok l c t s →
      Agent.deepfake_agent decode classifyImg classifyFrame order outcome
          file frames ft
        = .ok l c t s "Based on multi-method forensic analysis, this content shows the indicated confidence level for authenticity assessment.") := by
  have hexp : LLM.generate_analysis_explanation outcome
      = .ok "Based on multi-method forensic analysis, this content shows the indicated confidence level for authenticity assessment." := by
    rcases hfail with rfl | rfl | rfl <;> rfl
  refine ⟨rfl, ?_, ?_⟩
  · intro ft hft hdet
    simp [Agent.deepfake_agent, hft, hdet, hexp]
  · intro ft hft1 hft2 hdet
    simp [Agent.deepfake_agent, hft1, hft2, hdet, hexp]

/-- C7 witness: an HTTP-error outcome on an image request whose
detection returned ("Fake", 0.9): the agent result keeps label and
confidence and carries the "analysis" fallback text. -/
theorem agent_llm_failure_witness :
    ((LLM.LLMOutcome.badStatus = LLM.LLMOutcome.exn ∨
      LLM.LLMOutcome.badStatus = LLM.LLMOutcome.badStatus ∨
      LLM.LLMOutcome.badStatus = LLM.LLMOutcome.badJson) ∧
     Agent.pyStartswith "image/jpeg" "image/" = true ∧
     Backend.detect_image (fun _ : Unit => some ()) (fun _ => ("Fake", (9:ℚ)/10)) ()
       = .ok "Fake" ((9:ℚ)/10) "face_texture" ((9:ℚ)/10 * 100)) ∧
    Agent.deepfake_agent (fun _ : Unit => some ())
        (fun _ => ("Fake", (9:ℚ)/10)) (fun _ : Unit => ("Fake", (9:ℚ)/10))
        ["Fake"] LLM.LLMOutcome.badStatus () ([] : List Unit) "image/jpeg"
      = .ok "Fake" ((9:ℚ)/10) "face_texture" ((9:ℚ)/10 * 100)
          "Based on multi-method forensic analysis, this content shows the indicated confidence level for authenticity assessment." :=
  ⟨⟨Or.inr (Or.inl rfl), by decide, rfl⟩,
    ((agent_llm_failure_fallback (fun _ : Unit => some ())
        (fun _ => ("Fake", (9:ℚ)/10)) (fun _ : Unit => ("Fake", (9:ℚ)/10))
        ["Fake"] LLM.LLMOutcome.badStatus () ([] : List Unit)
        "Fake" ((9:ℚ)/10) "face_texture" ((9:ℚ)/10 * 100)
        (Or.inr (Or.inl rfl))).2.1 "image/jpeg" (by decide) rfl)⟩

namespace ImageModel

/-- Every non-empty list of reals attains its maximum. -/
lemma exists_max_mem : ∀ (xs : List ℝ), xs ≠ [] →
    ∃ a ∈ xs, ∀ y ∈ xs, y ≤ a := by
  intro xs
  induction xs with
  | nil => intro hxs; exact absurd rfl hxs
  | cons x t ih =>
      intro _
      cases t with
      | nil => exact ⟨x, List.mem_cons_self _ _, by simp⟩
      | cons y u =>
          obtain ⟨a, ha, hall⟩ := ih (by simp)
          by_cases hx : x ≤ a
          · refine ⟨a, List.mem_cons_of_mem _ ha, ?_⟩
            intro z hz
            rcases List.mem_cons.mp hz with rfl | hz'
            · exact hx
            · exact hall z hz'
          · refine ⟨x, List.mem_cons_self _ _, ?_⟩
            intro z hz
            rcases List.mem_cons.mp hz with rfl | hz'
            · exact le_refl _
            · exact (hall z hz').trans (le_of_not_le hx)

end ImageModel

/-- C8: the softmax value at the argmax index of the raw logits — the
confidence `softmax(logits)[0][pred]` of `predict_single_image` — is
the maximum of the softmax-normalized scores, i.e. the confidence
`torch.softmax(logits).max()` returned by `detect_image`: the two ways
of reading off the top-class probability coincide. -/
theorem softmax_max_at_argmax (xs : List ℝ) (h : xs ≠ []) :
    ∃ conf, (ImageModel.softmax xs).get? (ImageModel.argmaxIdx xs)
        = some conf ∧
      conf ∈ ImageModel.softmax xs ∧
      ∀ v ∈ ImageModel.softmax xs, v ≤ conf := by
  have hSpos : 0 < (xs.map Real.exp).sum := by
    apply List.sum_pos
    · intro x hx
      obtain ⟨y, _, rfl⟩ := List.mem_map.mp hx
      exact Real.exp_pos y
    · simpa using h
  obtain ⟨a0, ha0, hall0⟩ := ImageModel.exists_max_mem xs h
  unfold ImageModel.argmaxIdx ImageModel.softmax
  have hlt : xs.findIdx (fun x => decide (∀ y ∈ xs, y ≤ x)) < xs.length :=
    List.findIdx_lt_length_of_exists ⟨a0, ha0, decide_eq_true hall0⟩
  have hmax : ∀ y ∈ xs, y ≤ xs.get ⟨_, hlt⟩ :=
    of_decide_eq_true
      (@List.findIdx_get _ (fun x => decide (∀ y ∈ xs, y ≤ x)) xs hlt)
  refine ⟨Real.exp (xs.get ⟨_, hlt⟩) / (xs.map Real.exp).sum, ?_, ?_, ?_⟩
  · rw [List.get?_map, List.get?_eq_get hlt]
    rfl
  · exact List.mem_map.mpr ⟨xs.get ⟨_, hlt⟩, xs.get_mem _ _, rfl⟩
  · intro v hv
    obtain ⟨y, hy, rfl⟩ := List.mem_map.mp hv
    have hle := hmax y hy
    gcongr

/-- C8 witness: the two-logit list `[0, 1]`. -/
theorem softmax_max_at_argmax_witness :
    (([0, 1] : List ℝ) ≠ []) ∧
    (∃ conf, (ImageModel.softmax ([0, 1] : List ℝ)).get?
        (ImageModel.argmaxIdx ([0, 1] : List ℝ)) = some conf ∧
      conf ∈ ImageModel.softmax ([0, 1] : List ℝ) ∧
      ∀ v ∈ ImageModel.softmax ([0, 1] : List ℝ), v ≤ conf) :=
  ⟨List.cons_ne_nil 0 [1],
    softmax_max_at_argmax ([0, 1] : List ℝ) (List.cons_ne_nil 0 [1])⟩
